import Mathlib

/-!
Shallow embedding of `src/robusta/core/persistency/scheduled_jobs_states_dal.py`:
a key-value persistence layer for scheduled-job states backed by a single
Kubernetes ConfigMap named `jobs-states` in namespace `robusta`.

The remote cluster is modelled as `KStore : Option ConfigMap` — the slot for the
one document this component owns.  Each DAL operation returns its result
together with the list of backing-store calls it performed (`Eff`), so that
statements about "how many fetches/writes happened" are expressible.  The
module-level `mutex` serializes every mutating fetch-mutate-write-back
sequence; concurrency is therefore modelled by sequential composition of the
atomic operations (any interleaving of mutex-guarded critical sections equals
some sequential order of them).
-/

/-- Kubernetes ObjectMeta, restricted to the two fields the DAL uses
(`metadata.name`, `metadata.namespace`; `namespace` is a Lean keyword). -/
structure KObjectMeta where
  name : String
  namespc : String
deriving DecidableEq

/-- The backing document: hikaru/Kubernetes `ConfigMap` restricted to the fields
the DAL touches.  `data` is a Python `dict` of string keys to string values,
modelled as an insertion-ordered association list. -/
structure ConfigMap where
  metadata : KObjectMeta
  data : List (String × String)
deriving DecidableEq

/-- The state of the remote cluster: the slot for the one jobs-states document
(`none` = the ConfigMap does not exist). -/
abbrev KStore := Option ConfigMap

/-- A `kubernetes.client.exceptions.ApiException`, reduced to the `reason`
field which is all the DAL inspects. -/
structure ApiError where
  reason : String
deriving DecidableEq

/-- Errors a read path can surface: a backing-store failure, or a
deserialization failure of a stored value (Python: `json.loads` /
`JobState(**...)` raising). -/
inductive DalError where
  | api (e : ApiError)
  | deser (raw : String)
deriving DecidableEq

/-- One backing-store call performed by an operation. -/
inductive Eff where
  | fetch
  | create
  | replace
deriving DecidableEq

/-- Python `d.get(k)` on a dict: value of the (first) entry with key `k`. -/
def dictGet (d : List (String × String)) (k : String) : Option String :=
  match d with
  | [] => none
  | (k1, v1) :: rest => if k1 = k then some v1 else dictGet rest k

/-- Python `d[k] = v` on a dict: overwrite the existing entry in place if `k`
is present (dicts hold each key once, so only the first occurrence matters),
otherwise append at the end (dict insertion order). -/
def dictSet (d : List (String × String)) (k v : String) : List (String × String) :=
  match d with
  | [] => [(k, v)]
  | (k1, v1) :: rest => if k1 = k then (k1, v) :: rest else (k1, v1) :: dictSet rest k v

/-- Python `del d[k]` on a dict: remove the entry with key `k`. -/
def dictDel (d : List (String × String)) (k : String) : List (String × String) :=
  match d with
  | [] => []
  | (k1, v1) :: rest => if k1 = k then dictDel rest k else (k1, v1) :: dictDel rest k

/-- Python `d.keys()` in iteration order. -/
def dictKeys (d : List (String × String)) : List String :=
  d.map Prod.fst

/-- Modelled from the spec: the `params` object of a `JobState`
(`core/schedule/model.py` is not under src/).  The DAL reads exactly one field
of it, `playbook_id`, "the job's unique id" used as the map key. -/
structure JobParams where
  playbook_id : String
deriving DecidableEq

/-- Modelled from the spec: a `JobState` is "a job identifier plus arbitrary
job-specific state"; the identifier lives at `params.playbook_id` and the rest
is opaque to the store, kept here as one `payload` string. -/
structure JobState where
  params : JobParams
  payload : String
deriving DecidableEq

/-- Modelled from the spec: `job_state.json()`, the serialization of a
`JobState` to a string (pydantic JSON in the repository; the spec calls the
design "format-agnostic").  We use a concrete injective encoding — a unary
length prefix for the identifier, a newline, then identifier and payload —
so that serialization round-trips for every `JobState`. -/
def JobState.json (js : JobState) : String :=
  String.mk (List.replicate js.params.playbook_id.data.length '1'
    ++ '\n' :: (js.params.playbook_id.data ++ js.payload.data))

/-- Split a character list at its first newline; `none` when no newline
occurs (the string is not a valid encoding). -/
def splitAtNl : List Char → Option (List Char × List Char)
  | [] => none
  | c :: cs =>
    if c = '\n' then some ([], cs)
    else
      match splitAtNl cs with
      | some (pre, post) => some (c :: pre, post)
      | none => none

/-- Modelled from the spec: deserialization of a stored string back into a
`JobState` (Python `JobState(**json.loads(state_data))`); `none` models the
deserialization failure (Python: an exception). -/
def jobStateParse (s : String) : Option JobState :=
  match splitAtNl s.data with
  | none => none
  | some (pre, post) =>
    if pre.length ≤ post.length then
      some ⟨⟨String.mk (post.take pre.length)⟩, String.mk (post.drop pre.length)⟩
    else none

def CONFIGMAP_NAME : String := "jobs-states"

def CONFIGMAP_NAMESPACE : String := "robusta"

/-- `ConfigMap.readNamespacedConfigMap(CONFIGMAP_NAME, CONFIGMAP_NAMESPACE).obj`:
returns the document, or fails with reason "Not Found" when it is absent. -/
def load_config_map (s : KStore) : Except ApiError ConfigMap :=
  match s with
  | some cm => .ok cm
  | none => .error ⟨"Not Found"⟩

/-- `conf_map.createNamespacedConfigMap(namespace)`: creates the document;
fails if it already exists. -/
def createNamespacedConfigMap (cm : ConfigMap) (s : KStore) : Except ApiError KStore :=
  match s with
  | some _ => .error ⟨"Conflict"⟩
  | none => .ok (some cm)

/-- `confMap.replaceNamespacedConfigMap(name, namespace)`: whole-document
replace — the slot now holds exactly what the client sent. -/
def replaceNamespacedConfigMap (cm : ConfigMap) (_s : KStore) : KStore :=
  some cm

/-- The body of `init_scheduler_dal`'s `try/except` as a function of the
outcome of its `load_config_map()` call: on success nothing is done; on an
`ApiException` whose reason is not "Not Found" the error is re-raised; on
"Not Found" a ConfigMap with the well-known name and namespace (and, modelled
from the spec, "an empty mapping" — the hikaru `ConfigMap` constructor with no
`data` argument is not under src/) is created under the mutex. -/
def init_on_fetch (fetch : Except ApiError ConfigMap) (s : KStore) :
    Except ApiError KStore × List Eff :=
  match fetch with
  | .ok _ => (.ok s, [])
  | .error e =>
    if e.reason ≠ "Not Found" then (.error e, [])
    else
      let conf_map : ConfigMap := ⟨⟨CONFIGMAP_NAME, CONFIGMAP_NAMESPACE⟩, []⟩
      match createNamespacedConfigMap conf_map s with
      | .ok s1 => (.ok s1, [.create])
      | .error e1 => (.error e1, [.create])

/-- `init_scheduler_dal()`: fetch the document, then handle the outcome. -/
def init_scheduler_dal (s : KStore) : Except ApiError KStore × List Eff :=
  let r := init_on_fetch (load_config_map s) s
  (r.1, Eff.fetch :: r.2)

/-- `init_scheduler_dal()` called repeatedly (the module calls it once when
loaded; the spec requires it be safe to call N times).  A failed call
leaves the store unchanged. -/
def iterInit : Nat → KStore → KStore × List Eff
  | 0, s => (s, [])
  | n + 1, s =>
    let r := init_scheduler_dal s
    let s1 := match r.1 with
      | .ok s1 => s1
      | .error _ => s
    let rest := iterInit n s1
    (rest.1, r.2 ++ rest.2)

/-- `save_scheduled_job_state(job_state)`: under the mutex, fetch the current
document, set `data[job_state.params.playbook_id] = job_state.json()`, and
replace the whole document.  A fetch failure propagates to the caller. -/
def save_scheduled_job_state (s : KStore) (job_state : JobState) :
    Except ApiError KStore × List Eff :=
  match load_config_map s with
  | .error e => (.error e, [.fetch])
  | .ok cm =>
    let cm1 : ConfigMap :=
      { cm with data := dictSet cm.data job_state.params.playbook_id job_state.json }
    (.ok (replaceNamespacedConfigMap cm1 s), [.fetch, .replace])

/-- `get_scheduled_job_state(playbook_id)`: fetch the document, look the key
up in `data`; absent key yields `none` (Python `None`), a present key is
deserialized, and a deserialization failure is surfaced as an error distinct
from absence. -/
def get_scheduled_job_state (s : KStore) (playbook_id : String) :
    Except DalError (Option JobState) × List Eff :=
  match load_config_map s with
  | .error e => (.error (.api e), [.fetch])
  | .ok cm =>
    match dictGet cm.data playbook_id with
    | none => (.ok none, [.fetch])
    | some raw =>
      match jobStateParse raw with
      | some js => (.ok (some js), [.fetch])
      | none => (.error (.deser raw), [.fetch])

/-- `del_scheduled_job_state(playbook_id)`: under the mutex, fetch the current
document; if the key is present, delete it and replace the document; if it is
absent, do nothing (no write, no error). -/
def del_scheduled_job_state (s : KStore) (playbook_id : String) :
    Except ApiError KStore × List Eff :=
  match load_config_map s with
  | .error e => (.error e, [.fetch])
  | .ok cm =>
    match dictGet cm.data playbook_id with
    | some _ =>
      let cm1 : ConfigMap := { cm with data := dictDel cm.data playbook_id }
      (.ok (replaceNamespacedConfigMap cm1 s), [.fetch, .replace])
    | none => (.ok s, [.fetch])

/-- The list comprehension of `list_scheduled_jobs_states`: one
`get_scheduled_job_state` per key, left to right; the first exception aborts
the whole comprehension. -/
def listGo (s : KStore) : List String → Except DalError (List (Option JobState)) × List Eff
  | [] => (.ok [], [])
  | pid :: rest =>
    let r := get_scheduled_job_state s pid
    match r.1 with
    | .error e => (.error e, r.2)
    | .ok v =>
      let r1 := listGo s rest
      match r1.1 with
      | .error e => (.error e, r.2 ++ r1.2)
      | .ok vs => (.ok (v :: vs), r.2 ++ r1.2)

/-- `list_scheduled_jobs_states()`: fetch the document for its key list, then
run `get_scheduled_job_state` (which fetches again) for every key in
iteration order. -/
def list_scheduled_jobs_states (s : KStore) :
    Except DalError (List (Option JobState)) × List Eff :=
  match load_config_map s with
  | .error e => (.error (.api e), [.fetch])
  | .ok cm =>
    let r := listGo s (dictKeys cm.data)
    (r.1, Eff.fetch :: r.2)

/-- A sequence of `save_scheduled_job_state` calls run back to back.  Because
every save's fetch-mutate-write-back runs as one mutex-guarded critical
section, any concurrent schedule of N in-process saves is equal to some
sequential order of them; quantifying over every list order below covers
every schedule. -/
def runSaves : List JobState → KStore → KStore
  | [], s => s
  | js :: rest, s =>
    match (save_scheduled_job_state s js).1 with
    | .ok s1 => runSaves rest s1
    | .error _ => runSaves rest s

/-- The cluster state after a mutating call: the state its `.ok` result
carries, or `none` when the call failed (no claim below inspects the state of
a failed call). -/
def resultState (r : Except ApiError KStore × List Eff) : KStore :=
  match r.1 with
  | .ok s => s
  | .error _ => none

/-- The metadata of the document held by a cluster state, if any. -/
def docMeta : KStore → Option KObjectMeta
  | some cm => some cm.metadata
  | none => none

/-- Look a key up in the document held by a cluster state, if any. -/
def docGet (s : KStore) (k : String) : Option String :=
  match s with
  | some cm => dictGet cm.data k
  | none => none

/-- Did a read-path call complete without raising? -/
def succeeded {α : Type} (r : Except DalError α) : Bool :=
  match r with
  | .ok _ => true
  | .error _ => false

/-! ## Dictionary lemmas -/

theorem dictGet_dictSet_self (d : List (String × String)) (k v : String) :
    dictGet (dictSet d k v) k = some v := by
  induction d with
  | nil => simp [dictSet, dictGet]
  | cons p rest ih =>
    obtain ⟨k1, v1⟩ := p
    by_cases h : k1 = k
    · simp [dictSet, dictGet, h]
    · simp [dictSet, dictGet, h, ih]

theorem dictGet_dictSet_ne (d : List (String × String)) (k v k' : String)
    (h : k' ≠ k) : dictGet (dictSet d k v) k' = dictGet d k' := by
  induction d with
  | nil => simp [dictSet, dictGet, Ne.symm h]
  | cons p rest ih =>
    obtain ⟨k1, v1⟩ := p
    by_cases h1 : k1 = k
    · subst h1
      simp [dictSet, dictGet, Ne.symm h]
    · by_cases h2 : k1 = k'
      · simp [dictSet, dictGet, h1, h2, h]
      · simp [dictSet, dictGet, h1, h2, ih]

theorem dictGet_dictDel_self (d : List (String × String)) (k : String) :
    dictGet (dictDel d k) k = none := by
  induction d with
  | nil => simp [dictDel, dictGet]
  | cons p rest ih =>
    obtain ⟨k1, v1⟩ := p
    by_cases h : k1 = k
    · simpa [dictDel, h] using ih
    · simpa [dictDel, dictGet, h] using ih

theorem dictGet_dictDel_ne (d : List (String × String)) (k k' : String)
    (h : k' ≠ k) : dictGet (dictDel d k) k' = dictGet d k' := by
  induction d with
  | nil => simp [dictDel, dictGet]
  | cons p rest ih =>
    obtain ⟨k1, v1⟩ := p
    by_cases h1 : k1 = k
    · subst h1
      simp [dictDel, dictGet, Ne.symm h, ih]
    · by_cases h2 : k1 = k'
      · simp [dictDel, dictGet, h1, h2, h]
      · simp [dictDel, dictGet, h1, h2, ih]

theorem mem_dictKeys_dictSet_self (d : List (String × String)) (k v : String) :
    k ∈ dictKeys (dictSet d k v) := by
  induction d with
  | nil => simp [dictSet, dictKeys]
  | cons p rest ih =>
    obtain ⟨k1, v1⟩ := p
    by_cases h : k1 = k
    · simp [dictSet, dictKeys, h]
    · simp only [dictSet, dictKeys, h, if_false, List.map_cons, List.mem_cons]
      exact Or.inr ih

theorem mem_dictKeys_dictSet_mono (d : List (String × String)) (k v k' : String)
    (h : k' ∈ dictKeys d) : k' ∈ dictKeys (dictSet d k v) := by
  induction d with
  | nil => simp [dictKeys] at h
  | cons p rest ih =>
    obtain ⟨k1, v1⟩ := p
    simp only [dictKeys, List.map_cons, List.mem_cons] at h
    by_cases h1 : k1 = k
    · rcases h with h | h
      · simp [dictSet, dictKeys, h1, h]
      · simp only [dictSet, dictKeys, h1, if_true, List.map_cons, List.mem_cons]
        exact Or.inr h
    · rcases h with h | h
      · simp [dictSet, dictKeys, h1, h]
      · simp only [dictSet, dictKeys, h1, if_false, List.map_cons, List.mem_cons]
        exact Or.inr (ih h)

theorem dictGet_some_mem_dictKeys (d : List (String × String)) (k v : String)
    (h : dictGet d k = some v) : k ∈ dictKeys d := by
  induction d with
  | nil => simp [dictGet] at h
  | cons p rest ih =>
    obtain ⟨k1, v1⟩ := p
    by_cases h1 : k1 = k
    · simp [dictKeys, h1]
    · simp only [dictGet, h1, if_false] at h
      simp only [dictKeys, List.map_cons, List.mem_cons]
      exact Or.inr (ih h)

theorem dictGet_of_nodup_mem (d : List (String × String)) (k v : String)
    (hnd : (dictKeys d).Nodup) (h : (k, v) ∈ d) : dictGet d k = some v := by
  induction d with
  | nil => simp at h
  | cons p rest ih =>
    obtain ⟨k1, v1⟩ := p
    simp only [dictKeys, List.map_cons, List.nodup_cons] at hnd
    rcases List.mem_cons.mp h with h | h
    · obtain ⟨hk, hv⟩ := Prod.mk.injEq .. ▸ h
      simp [dictGet, hk.symm, hv]
    · have hne : k1 ≠ k := by
        intro hk
        subst hk
        exact hnd.1 (List.mem_map.mpr ⟨(k1, v), h, rfl⟩)
      simp only [dictGet, hne, if_false]
      exact ih hnd.2 h

/-! ## Serialization round-trip -/

theorem splitAtNl_append (pre post : List Char) (h : '\n' ∉ pre) :
    splitAtNl (pre ++ '\n' :: post) = some (pre, post) := by
  induction pre with
  | nil => simp [splitAtNl]
  | cons c cs ih =>
    simp only [List.mem_cons, not_or] at h
    have hc : ¬ c = '\n' := fun hh => h.1 hh.symm
    simp [splitAtNl, hc, ih h.2]

theorem jobStateParse_json (js : JobState) : jobStateParse js.json = some js := by
  obtain ⟨⟨pid⟩, payload⟩ := js
  have hnl : '\n' ∉ List.replicate pid.data.length '1' := by
    intro h
    have := List.eq_of_mem_replicate h
    simp at this
  simp only [jobStateParse, JobState.json, splitAtNl_append _ _ hnl,
    List.length_replicate, List.length_append, Nat.le_add_right, if_true,
    List.take_left, List.drop_left]

/-! ## Evaluation lemmas for the DAL operations -/

theorem save_eq (cm : ConfigMap) (js : JobState) :
    save_scheduled_job_state (some cm) js
      = (.ok (some { cm with data := dictSet cm.data js.params.playbook_id js.json }),
         [.fetch, .replace]) := rfl

theorem get_eq_absent (cm : ConfigMap) (k : String) (h : dictGet cm.data k = none) :
    get_scheduled_job_state (some cm) k = (.ok none, [.fetch]) := by
  simp [get_scheduled_job_state, load_config_map, h]

theorem get_eq_parse (cm : ConfigMap) (k raw : String) (js : JobState)
    (h : dictGet cm.data k = some raw) (hp : jobStateParse raw = some js) :
    get_scheduled_job_state (some cm) k = (.ok (some js), [.fetch]) := by
  simp [get_scheduled_job_state, load_config_map, h, hp]

theorem get_eq_corrupt (cm : ConfigMap) (k raw : String)
    (h : dictGet cm.data k = some raw) (hp : jobStateParse raw = none) :
    get_scheduled_job_state (some cm) k = (.error (.deser raw), [.fetch]) := by
  simp [get_scheduled_job_state, load_config_map, h, hp]

theorem del_eq_present (cm : ConfigMap) (k v : String) (h : dictGet cm.data k = some v) :
    del_scheduled_job_state (some cm) k
      = (.ok (some { cm with data := dictDel cm.data k }), [.fetch, .replace]) := by
  simp [del_scheduled_job_state, load_config_map, replaceNamespacedConfigMap, h]

theorem del_eq_absent (cm : ConfigMap) (k : String) (h : dictGet cm.data k = none) :
    del_scheduled_job_state (some cm) k = (.ok (some cm), [.fetch]) := by
  simp [del_scheduled_job_state, load_config_map, h]

theorem init_eq_some (cm : ConfigMap) :
    init_scheduler_dal (some cm) = (.ok (some cm), [.fetch]) := rfl

theorem init_eq_none :
    init_scheduler_dal none
      = (.ok (some ⟨⟨CONFIGMAP_NAME, CONFIGMAP_NAMESPACE⟩, []⟩), [.fetch, .create]) := rfl

theorem iterInit_some (n : Nat) (cm : ConfigMap) :
    iterInit n (some cm) = (some cm, List.replicate n Eff.fetch) := by
  induction n with
  | zero => simp [iterInit]
  | succ m ih => simp [iterInit, init_eq_some, ih, List.replicate_succ]

/-! ## Claim theorems -/

/-- C1: for every key k and JobState value v where k is v's job identifier
(`params.playbook_id`), `save(k, v)` followed immediately by `get(k)` returns
a value that deserializes to a JobState equal to v.  The document `cm` is
arbitrary — in particular it may already bind k, so a later save of the same
key overwrites (not merges) the stored value. -/
theorem save_then_get_roundtrip (cm : ConfigMap) (js : JobState) (s1 : KStore)
    (effs : List Eff)
    (h : save_scheduled_job_state (some cm) js = (.ok s1, effs)) :
    get_scheduled_job_state s1 js.params.playbook_id = (.ok (some js), [.fetch]) := by
  rw [save_eq] at h
  obtain ⟨h1, -⟩ := Prod.mk.injEq .. ▸ h
  obtain rfl := (Except.ok.injEq .. ▸ h1).symm
  exact get_eq_parse _ _ _ _ (dictGet_dictSet_self ..) (jobStateParse_json js)

theorem save_then_get_roundtrip_witness :
    get_scheduled_job_state
      (some ⟨⟨"jobs-states", "robusta"⟩, [("a", JobState.json ⟨⟨"a"⟩, "x"⟩)]⟩) "a"
      = (.ok (some ⟨⟨"a"⟩, "x"⟩), [.fetch]) :=
  save_then_get_roundtrip ⟨⟨"jobs-states", "robusta"⟩, [("a", "stale")]⟩ ⟨⟨"a"⟩, "x"⟩
    (some ⟨⟨"jobs-states", "robusta"⟩, [("a", JobState.json ⟨⟨"a"⟩, "x"⟩)]⟩)
    [.fetch, .replace] rfl

/-- C2: calling `initialize()` N ≥ 1 times starting from an absent document
performs exactly one create and no replace across all N calls; calling it when
the document already exists does a bare fetch — no create, no replace, state
unchanged. -/
theorem init_idempotent (n : Nat) (hn : 1 ≤ n) (cm : ConfigMap) :
    ((iterInit n none).2.count Eff.create = 1
      ∧ (iterInit n none).2.count Eff.replace = 0)
    ∧ init_scheduler_dal (some cm) = (.ok (some cm), [.fetch]) := by
  refine ⟨?_, init_eq_some cm⟩
  obtain ⟨m, rfl⟩ : ∃ m, n = m + 1 := ⟨n - 1, (Nat.succ_pred_eq_of_pos hn).symm⟩
  have hstep : iterInit (m + 1) none
      = (some ⟨⟨CONFIGMAP_NAME, CONFIGMAP_NAMESPACE⟩, []⟩,
         [Eff.fetch, Eff.create] ++ List.replicate m Eff.fetch) := by
    simp [iterInit, init_eq_none, iterInit_some]
  rw [hstep]
  constructor
  · simp [List.count_cons, List.count_replicate]
  · simp [List.count_cons, List.count_replicate]

theorem init_idempotent_witness :
    (((iterInit 3 none).2.count Eff.create = 1
       ∧ (iterInit 3 none).2.count Eff.replace = 0)
      ∧ init_scheduler_dal (some ⟨⟨"jobs-states", "robusta"⟩, []⟩)
          = (.ok (some ⟨⟨"jobs-states", "robusta"⟩, []⟩), [.fetch])) ∧ 1 ≤ 3 :=
  ⟨init_idempotent 3 (by decide) ⟨⟨"jobs-states", "robusta"⟩, []⟩, by decide⟩

/-- C3: when `initialize()`'s fetch fails with the "Not Found" condition and
the document is absent, it creates a document with the well-known name and
namespace and an empty mapping and surfaces no error; a fetch failure with any
other reason is propagated unchanged to the caller, with no retry and no
create. -/
theorem init_fetch_failure (e : ApiError) (s : KStore)
    (he : e.reason ≠ "Not Found") :
    init_on_fetch (.error e) s = (.error e, [])
    ∧ init_on_fetch (.error ⟨"Not Found"⟩) none
        = (.ok (some ⟨⟨CONFIGMAP_NAME, CONFIGMAP_NAMESPACE⟩, []⟩), [.create]) := by
  exact ⟨by simp [init_on_fetch, he], rfl⟩

theorem init_fetch_failure_witness :
    (init_on_fetch (.error ⟨"Forbidden"⟩) none = (.error ⟨"Forbidden"⟩, [])
      ∧ init_on_fetch (.error ⟨"Not Found"⟩) none
          = (.ok (some ⟨⟨CONFIGMAP_NAME, CONFIGMAP_NAMESPACE⟩, []⟩), [.create]))
    ∧ ApiError.reason ⟨"Forbidden"⟩ ≠ "Not Found" :=
  ⟨init_fetch_failure ⟨"Forbidden"⟩ none (by decide), by decide⟩

theorem listGo_of_entries (cm : ConfigMap) (l : List (String × String))
    (hsub : ∀ p ∈ l, dictGet cm.data p.1 = some p.2)
    (hok : ∀ p ∈ l, (jobStateParse p.2).isSome) :
    listGo (some cm) (l.map Prod.fst)
      = (.ok (l.map fun p => jobStateParse p.2),
         List.replicate l.length Eff.fetch) := by
  induction l with
  | nil => simp [listGo]
  | cons p rest ih =>
    obtain ⟨js, hjs⟩ := Option.isSome_iff_exists.mp (hok p (by simp))
    have hget := get_eq_parse cm p.1 p.2 js (hsub p (by simp)) hjs
    have ihh := ih (fun q hq => hsub q (by simp [hq])) (fun q hq => hok q (by simp [hq]))
    simp [listGo, hget, ihh, hjs, List.replicate_succ]

/-- C4 counterexample: on a document holding a single key, `listAll()`
performs two fetches, not one — each per-key `get` re-fetches the document on
top of the initial fetch that enumerated the keys. -/
theorem listAll_single_fetch_counterexample :
    (list_scheduled_jobs_states (some ⟨⟨"jobs-states", "robusta"⟩,
        [("a", JobState.json ⟨⟨"a"⟩, "x"⟩)]⟩)).2.count Eff.fetch = 2
    ∧ (2 : Nat) ≠ 1 := by
  exact ⟨by decide, by decide⟩

/-- C4 amended: each call to `listAll()` fetches the document once to
enumerate keys and then once more per key (through `get`), 1 + n fetches for a
document with n keys, and returns one deserialized JobState per key present in
the document's mapping, in the mapping's iteration order. -/
theorem listAll_refetches_per_key (cm : ConfigMap)
    (hnd : (dictKeys cm.data).Nodup)
    (hok : ∀ p ∈ cm.data, (jobStateParse p.2).isSome) :
    list_scheduled_jobs_states (some cm)
      = (.ok (cm.data.map fun p => jobStateParse p.2),
         Eff.fetch :: List.replicate cm.data.length Eff.fetch) := by
  have hsub : ∀ p ∈ cm.data, dictGet cm.data p.1 = some p.2 := by
    intro p hp
    exact dictGet_of_nodup_mem cm.data p.1 p.2 hnd (by simpa using hp)
  have h := listGo_of_entries cm cm.data hsub hok
  simp only [list_scheduled_jobs_states, load_config_map]
  rw [show dictKeys cm.data = cm.data.map Prod.fst from rfl, h]

theorem listAll_refetches_per_key_witness :
    list_scheduled_jobs_states (some ⟨⟨"jobs-states", "robusta"⟩,
        [("a", JobState.json ⟨⟨"a"⟩, "x"⟩), ("b", JobState.json ⟨⟨"b"⟩, "y"⟩)]⟩)
      = (.ok [some ⟨⟨"a"⟩, "x"⟩, some ⟨⟨"b"⟩, "y"⟩], [.fetch, .fetch, .fetch]) :=
  listAll_refetches_per_key ⟨⟨"jobs-states", "robusta"⟩,
    [("a", JobState.json ⟨⟨"a"⟩, "x"⟩), ("b", JobState.json ⟨⟨"b"⟩, "y"⟩)]⟩
    (by decide) (by decide)

/-- C5: after `delete(k)` on an existing document, `get(k)` returns absent
(whether or not k was present); and `delete(k)` when k is absent from the
mapping performs no write and raises no error — the state is returned
unchanged with only the fetch effect. -/
theorem delete_effective_and_idempotent (cm : ConfigMap) (k : String) :
    (∀ s1 effs, del_scheduled_job_state (some cm) k = (.ok s1, effs) →
        get_scheduled_job_state s1 k = (.ok none, [.fetch]))
    ∧ (dictGet cm.data k = none →
        del_scheduled_job_state (some cm) k = (.ok (some cm), [.fetch])) := by
  constructor
  · intro s1 effs h
    cases hk : dictGet cm.data k with
    | none =>
      rw [del_eq_absent cm k hk] at h
      obtain ⟨h1, -⟩ := Prod.mk.injEq .. ▸ h
      obtain rfl := (Except.ok.injEq .. ▸ h1).symm
      exact get_eq_absent cm k hk
    | some v =>
      rw [del_eq_present cm k v hk] at h
      obtain ⟨h1, -⟩ := Prod.mk.injEq .. ▸ h
      obtain rfl := (Except.ok.injEq .. ▸ h1).symm
      exact get_eq_absent _ k (dictGet_dictDel_self cm.data k)
  · intro hk
    exact del_eq_absent cm k hk

theorem delete_effective_and_idempotent_witness :
    get_scheduled_job_state (some ⟨⟨"jobs-states", "robusta"⟩, []⟩) "k"
      = (.ok none, [.fetch])
    ∧ del_scheduled_job_state (some ⟨⟨"jobs-states", "robusta"⟩, []⟩) "k"
        = (.ok (some ⟨⟨"jobs-states", "robusta"⟩, []⟩), [.fetch]) :=
  ⟨(delete_effective_and_idempotent ⟨⟨"jobs-states", "robusta"⟩, [("k", "v")]⟩ "k").1
      (some ⟨⟨"jobs-states", "robusta"⟩, []⟩) [.fetch, .replace] rfl,
   (delete_effective_and_idempotent ⟨⟨"jobs-states", "robusta"⟩, []⟩ "k").2 rfl⟩

/-- C6: `get(k)` for a key absent from the document's mapping returns absent
(`none`), not an error — including immediately after `initialize()` has
created a fresh, empty document from an absent one. -/
theorem get_absent_not_error (cm : ConfigMap) (k : String)
    (h : dictGet cm.data k = none) :
    get_scheduled_job_state (some cm) k = (.ok none, [.fetch])
    ∧ ∀ s1 effs, init_scheduler_dal none = (.ok s1, effs) →
        get_scheduled_job_state s1 k = (.ok none, [.fetch]) := by
  refine ⟨get_eq_absent cm k h, ?_⟩
  intro s1 effs hinit
  rw [init_eq_none] at hinit
  obtain ⟨h1, -⟩ := Prod.mk.injEq .. ▸ hinit
  obtain rfl := (Except.ok.injEq .. ▸ h1).symm
  exact get_eq_absent _ k rfl

theorem get_absent_not_error_witness :
    get_scheduled_job_state (some ⟨⟨"jobs-states", "robusta"⟩, [("b", "w")]⟩) "a"
      = (.ok none, [.fetch])
    ∧ get_scheduled_job_state (some ⟨⟨CONFIGMAP_NAME, CONFIGMAP_NAMESPACE⟩, []⟩) "a"
        = (.ok none, [.fetch]) :=
  ⟨(get_absent_not_error ⟨⟨"jobs-states", "robusta"⟩, [("b", "w")]⟩ "a" rfl).1,
   (get_absent_not_error ⟨⟨"jobs-states", "robusta"⟩, [("b", "w")]⟩ "a" rfl).2
     (some ⟨⟨CONFIGMAP_NAME, CONFIGMAP_NAMESPACE⟩, []⟩) [.fetch, .create] rfl⟩

theorem listGo_error_of_mem (s : KStore) (ks : List String) (k : String)
    (hmem : k ∈ ks) (herr : succeeded (get_scheduled_job_state s k).1 = false) :
    succeeded (listGo s ks).1 = false := by
  induction ks with
  | nil => simp at hmem
  | cons pid rest ih =>
    cases hg : (get_scheduled_job_state s pid).1 with
    | error e => simp [listGo, hg, succeeded]
    | ok v =>
      have hk : k ∈ rest := by
        rcases List.mem_cons.mp hmem with rfl | hk
        · rw [hg] at herr
          simp [succeeded] at herr
        · exact hk
      have hrest := ih hk
      cases hl : (listGo s rest).1 with
      | error e => simp [listGo, hg, hl, succeeded]
      | ok vs =>
        rw [hl] at hrest
        simp [succeeded] at hrest

/-- C7: for a key whose stored value does not parse back into a JobState,
`get(k)` surfaces a deserialization error carrying the raw value — never the
absent result — and the presence of that single corrupt entry makes the whole
`listAll()` call fail instead of skipping the entry. -/
theorem get_corrupt_distinct_and_list_fails (cm : ConfigMap) (k raw : String)
    (h1 : dictGet cm.data k = some raw) (h2 : jobStateParse raw = none) :
    get_scheduled_job_state (some cm) k = (.error (.deser raw), [.fetch])
    ∧ succeeded (list_scheduled_jobs_states (some cm)).1 = false := by
  have hget := get_eq_corrupt cm k raw h1 h2
  refine ⟨hget, ?_⟩
  have hmem : k ∈ dictKeys cm.data := dictGet_some_mem_dictKeys cm.data k raw h1
  have herr : succeeded (get_scheduled_job_state (some cm) k).1 = false := by
    rw [hget]
    rfl
  have hgo := listGo_error_of_mem (some cm) (dictKeys cm.data) k hmem herr
  simpa [list_scheduled_jobs_states, load_config_map] using hgo

theorem get_corrupt_distinct_and_list_fails_witness :
    get_scheduled_job_state
        (some ⟨⟨"jobs-states", "robusta"⟩, [("good", JobState.json ⟨⟨"good"⟩, "y"⟩), ("a", "xyz")]⟩) "a"
      = (.error (.deser "xyz"), [.fetch])
    ∧ succeeded (list_scheduled_jobs_states
        (some ⟨⟨"jobs-states", "robusta"⟩, [("good", JobState.json ⟨⟨"good"⟩, "y"⟩), ("a", "xyz")]⟩)).1
      = false :=
  get_corrupt_distinct_and_list_fails
    ⟨⟨"jobs-states", "robusta"⟩, [("good", JobState.json ⟨⟨"good"⟩, "y"⟩), ("a", "xyz")]⟩
    "a" "xyz" (by decide) (by decide)

theorem dictGet_isSome_dictSet (d : List (String × String)) (k k2 v : String)
    (h : (dictGet d k).isSome) : (dictGet (dictSet d k2 v) k).isSome := by
  by_cases hk : k = k2
  · subst hk
    simp [dictGet_dictSet_self]
  · rw [dictGet_dictSet_ne d k2 v k hk]
    exact h

theorem runSaves_preserves_key (l : List JobState) (cm : ConfigMap) (k : String)
    (h : (docGet (some cm) k).isSome) :
    (docGet (runSaves l (some cm)) k).isSome := by
  induction l generalizing cm with
  | nil => simpa [runSaves] using h
  | cons hd rest ih =>
    simp only [runSaves, save_eq]
    apply ih
    simp only [docGet] at h ⊢
    exact dictGet_isSome_dictSet cm.data k hd.params.playbook_id hd.json h

theorem runSaves_adds_key :
    ∀ (l : List JobState) (cm : ConfigMap) (js : JobState), js ∈ l →
      (docGet (runSaves l (some cm)) js.params.playbook_id).isSome := by
  intro l
  induction l with
  | nil =>
    intro cm js h
    simp at h
  | cons hd rest ih =>
    intro cm js hmem
    simp only [runSaves, save_eq]
    rcases List.mem_cons.mp hmem with rfl | hmem2
    · apply runSaves_preserves_key
      simp [docGet, dictGet_dictSet_self]
    · exact ih _ js hmem2

/-- C8: `save` changes only the mapping entry for its own key and `delete`
removes only the entry for its key: every entry under any other key, and the
document's metadata (name and namespace), are returned unchanged; and no
operation deletes the document itself — after `save`, `delete` or
`initialize` on an existing document the slot still holds a document. -/
theorem store_frame (cm : ConfigMap) (js : JobState) (kd ko : String)
    (hso : ko ≠ js.params.playbook_id) (hdo : ko ≠ kd) :
    (docMeta (resultState (save_scheduled_job_state (some cm) js)) = some cm.metadata
      ∧ docGet (resultState (save_scheduled_job_state (some cm) js)) ko
          = dictGet cm.data ko)
    ∧ (docMeta (resultState (del_scheduled_job_state (some cm) kd)) = some cm.metadata
      ∧ docGet (resultState (del_scheduled_job_state (some cm) kd)) ko
          = dictGet cm.data ko)
    ∧ resultState (init_scheduler_dal (some cm)) = some cm := by
  refine ⟨⟨?_, ?_⟩, ⟨?_, ?_⟩, rfl⟩
  · rw [save_eq]
    rfl
  · rw [save_eq]
    simp only [resultState, docGet]
    exact dictGet_dictSet_ne cm.data js.params.playbook_id js.json ko hso
  · cases hk : dictGet cm.data kd with
    | none =>
      rw [del_eq_absent cm kd hk]
      rfl
    | some v =>
      rw [del_eq_present cm kd v hk]
      rfl
  · cases hk : dictGet cm.data kd with
    | none =>
      rw [del_eq_absent cm kd hk]
      rfl
    | some v =>
      rw [del_eq_present cm kd v hk]
      simp only [resultState, docGet]
      exact dictGet_dictDel_ne cm.data kd ko hdo

theorem store_frame_witness :
    (docMeta (resultState (save_scheduled_job_state
          (some ⟨⟨"jobs-states", "robusta"⟩, [("b", "w")]⟩) ⟨⟨"a"⟩, "x"⟩))
        = some ⟨"jobs-states", "robusta"⟩
      ∧ docGet (resultState (save_scheduled_job_state
          (some ⟨⟨"jobs-states", "robusta"⟩, [("b", "w")]⟩) ⟨⟨"a"⟩, "x"⟩)) "b"
        = some "w")
    ∧ (docMeta (resultState (del_scheduled_job_state
          (some ⟨⟨"jobs-states", "robusta"⟩, [("b", "w")]⟩) "kd"))
        = some ⟨"jobs-states", "robusta"⟩
      ∧ docGet (resultState (del_scheduled_job_state
          (some ⟨⟨"jobs-states", "robusta"⟩, [("b", "w")]⟩) "kd")) "b"
        = some "w")
    ∧ resultState (init_scheduler_dal (some ⟨⟨"jobs-states", "robusta"⟩, [("b", "w")]⟩))
        = some ⟨⟨"jobs-states", "robusta"⟩, [("b", "w")]⟩ :=
  store_frame ⟨⟨"jobs-states", "robusta"⟩, [("b", "w")]⟩ ⟨⟨"a"⟩, "x"⟩ "kd" "b"
    (by decide) (by decide)

/-- C9: the module-level mutex makes each save's fetch-mutate-write-back one
atomic critical section, so any schedule of N concurrent in-process saves is
equal to some sequential order of them; for every such order of saves with
pairwise-disjoint keys against the freshly initialized empty document, every
save survives — the final document's mapping contains every saved key. -/
theorem concurrent_saves_no_lost_update (l : List JobState)
    ( _hnd : (l.map fun js => js.params.playbook_id).Nodup)
    (js : JobState) (hmem : js ∈ l) :
    (docGet (runSaves l (some ⟨⟨CONFIGMAP_NAME, CONFIGMAP_NAMESPACE⟩, []⟩))
        js.params.playbook_id).isSome = true :=
  runSaves_adds_key l _ js hmem

theorem concurrent_saves_no_lost_update_witness :
    (docGet (runSaves [⟨⟨"a"⟩, "x"⟩, ⟨⟨"b"⟩, "y"⟩]
        (some ⟨⟨CONFIGMAP_NAME, CONFIGMAP_NAMESPACE⟩, []⟩)) "b").isSome = true :=
  concurrent_saves_no_lost_update [⟨⟨"a"⟩, "x"⟩, ⟨⟨"b"⟩, "y"⟩] (by decide)
    ⟨⟨"b"⟩, "y"⟩ (by decide)

/-- C10: `save` takes no separate key parameter — the key is taken from the
value itself: after a successful save the entry under
`job_state.params.playbook_id` holds exactly the serialized state, and that
stored value deserializes back to the very JobState whose `playbook_id` is the
key, so a state can never sit under a key other than its own identifier. -/
theorem save_key_is_playbook_id (cm : ConfigMap) (js : JobState) (s1 : KStore)
    (effs : List Eff)
    (h : save_scheduled_job_state (some cm) js = (.ok s1, effs)) :
    docGet s1 js.params.playbook_id = some js.json
    ∧ jobStateParse js.json = some js := by
  rw [save_eq] at h
  obtain ⟨h1, -⟩ := Prod.mk.injEq .. ▸ h
  obtain rfl := (Except.ok.injEq .. ▸ h1).symm
  refine ⟨?_, jobStateParse_json js⟩
  simpa [docGet] using dictGet_dictSet_self cm.data js.params.playbook_id js.json

theorem save_key_is_playbook_id_witness :
    docGet (some ⟨⟨"jobs-states", "robusta"⟩, [("a", JobState.json ⟨⟨"a"⟩, "x"⟩)]⟩) "a"
      = some (JobState.json ⟨⟨"a"⟩, "x"⟩)
    ∧ jobStateParse (JobState.json ⟨⟨"a"⟩, "x"⟩) = some ⟨⟨"a"⟩, "x"⟩ :=
  save_key_is_playbook_id ⟨⟨"jobs-states", "robusta"⟩, []⟩ ⟨⟨"a"⟩, "x"⟩
    (some ⟨⟨"jobs-states", "robusta"⟩, [("a", JobState.json ⟨⟨"a"⟩, "x"⟩)]⟩)
    [.fetch, .replace] rfl
